import Mathlib

/-!
# Verification of `update_website.py` (tristar-web)

A shallow embedding of the content-parsing and image-mirroring functions of
`update_website.py` into Lean, together with theorems settling the frozen
claims about the program.

Conventions of the embedding:
* A spreadsheet `Row` (a Python dict produced by `csv.DictReader`) is an
  association list `List (String × String)`; `pyGet` models `row.get(k)`
  (returning `none` when the key is absent) and `pyGetD` models
  `row.get(k, default)`.
* Python string operations are modelled by executable functions over
  `String` / `List Char`: `pySplit` models `str.split(sep)` for a non-empty
  separator, `pyStrip` models `str.strip()` (ASCII whitespace), `pyReplace`
  models `str.replace(old, new)` (every non-overlapping occurrence, left to
  right), `pyIn pat s` models Python `pat in s`.
* Network and filesystem effects of the image downloader are abstracted by
  an oracle `net : String → Bool` mapping a drive file id to the success of
  its download; `urllib` exceptions are exactly the `false` answers.
* Python dict subscripting (`row['field']`), which can raise `KeyError`,
  is modelled in the `Option` monad; every other operation used by the
  parsers is total.
-/

/-- Truthiness of `row.get(k)`: `None` and the empty string are falsy. -/
def truthy : Option String → Bool
  | none => false
  | some s => s != ""

/-- A spreadsheet row: field name to string value, keys unique in practice. -/
def Row : Type := List (String × String)

/-- `row.get(k)`: first entry with key `k`, if any. -/
def pyGet (row : Row) (k : String) : Option String :=
  (List.find? (fun p => p.1 == k) row).map (fun p => p.2)

/-- `row.get(k, d)`. -/
def pyGetD (row : Row) (k d : String) : String :=
  (pyGet row k).getD d

/-- ASCII whitespace as stripped by Python `str.strip()`. -/
def isPyWS (c : Char) : Bool :=
  c = ' ' || c = '\t' || c = '\n' || c = '\r' || c = '\x0b' || c = '\x0c'

/-- Python `str.strip()` over ASCII whitespace. -/
def pyStrip (s : String) : String :=
  ⟨((s.data.dropWhile isPyWS).reverse.dropWhile isPyWS).reverse⟩

/-- Worker for `pySplit`; the fuel is an upper bound on the number of steps
(one character is consumed per step), so `s.length` fuel always suffices. -/
def splitFuel (sep : List Char) : Nat → List Char → List Char → List (List Char)
  | 0, acc, s => [acc ++ s]
  | _ + 1, acc, [] => [acc]
  | fuel + 1, acc, c :: rest =>
    if sep.isPrefixOf (c :: rest) then
      acc :: splitFuel sep fuel [] ((c :: rest).drop sep.length)
    else
      splitFuel sep fuel (acc ++ [c]) rest

/-- Python `s.split(sep)` for a non-empty separator. -/
def pySplit (s sep : String) : List String :=
  if sep = "" then [s]
  else (splitFuel sep.data s.data.length [] s.data).map (fun l => ⟨l⟩)

/-- Substring occurrence over character lists. -/
def listContains (pat : List Char) : List Char → Bool
  | [] => pat.isEmpty
  | c :: rest => pat.isPrefixOf (c :: rest) || listContains pat rest

/-- Python `pat in s` (substring containment). -/
def pyIn (pat s : String) : Bool :=
  listContains pat.data s.data

/-- Python `s.startswith(pre)`. -/
def pyStartsWith (s pre : String) : Bool :=
  pre.data.isPrefixOf s.data

/-- Python `s.endswith(suf)`. -/
def pyEndsWith (s suf : String) : Bool :=
  suf.data.isSuffixOf s.data

/-- Worker for `pyReplace`; one character is consumed per fuel step. -/
def replaceFuel (pat rep : List Char) : Nat → List Char → List Char
  | 0, s => s
  | _ + 1, [] => []
  | fuel + 1, c :: rest =>
    if pat.isPrefixOf (c :: rest) then
      rep ++ replaceFuel pat rep fuel ((c :: rest).drop pat.length)
    else
      c :: replaceFuel pat rep fuel rest

/-- Python `s.replace(pat, rep)` for a non-empty pattern: every
non-overlapping occurrence, scanning left to right. -/
def pyReplace (s pat rep : String) : String :=
  if pat = "" then s
  else ⟨replaceFuel pat.data rep.data s.data.length s.data⟩

/-- `re.search` for the regexes of `extract_gdrive_file_id`, all of the form
`lit([a-zA-Z0-9_-]+)`: at the leftmost position where the literal occurs
followed by at least one id character, capture the maximal id-character run. -/
def findMatch (lit : List Char) : List Char → Option (List Char)
  | [] => none
  | c :: rest =>
    if lit.isPrefixOf (c :: rest) then
      let run := ((c :: rest).drop lit.length).takeWhile
        (fun ch => ch.isAlphanum || ch = '_' || ch = '-')
      if run.isEmpty then findMatch lit rest else some run
    else findMatch lit rest

/-! ## The parsers of `update_website.py` (lines 116-216) -/

/-- Both `row.get('field')` and `row.get('value')` are truthy: the guard of
the `field`/`value` parsers. -/
def contributes (row : Row) : Bool :=
  truthy (pyGet row "field") && truthy (pyGet row "value")

/-- Python dict assignment `m[k] = v` on an association list: the first
entry with key `k` is updated in place, otherwise the pair is appended. -/
def dinsert : List (String × String) → String → String → List (String × String)
  | [], k, v => [(k, v)]
  | p :: rest, k, v => if p.1 = k then (k, v) :: rest else p :: dinsert rest k v

/-- Python dict lookup `m[k]` on an association list, `none` when absent. -/
def dlookup (m : List (String × String)) (k : String) : Option String :=
  (List.find? (fun p => p.1 == k) m).map (fun p => p.2)

/-- Loop body of `parse_general_info` / `parse_hero` / `parse_contact`:
`if row.get('field') and row.get('value'): info[row['field']] = row['value']`.
The subscripts `row['field']` / `row['value']` can raise `KeyError`, hence
the `Option`. -/
def fvStep (info : List (String × String)) (row : Row) :
    Option (List (String × String)) :=
  if contributes row then
    match pyGet row "field", pyGet row "value" with
    | some f, some v => some (dinsert info f v)
    | _, _ => none
  else some info

/-- `parse_general_info` (lines 116-122). -/
def parse_general_info (data : List Row) : Option (List (String × String)) :=
  List.foldlM fvStep [] data

/-- `parse_hero` (lines 124-130), same body as `parse_general_info`. -/
def parse_hero (data : List Row) : Option (List (String × String)) :=
  List.foldlM fvStep [] data

/-- `parse_contact` (lines 210-216), same body as `parse_general_info`. -/
def parse_contact (data : List Row) : Option (List (String × String)) :=
  List.foldlM fvStep [] data

/-- The total counterpart of `fvStep`. -/
def fvPlainStep (info : List (String × String)) (row : Row) :
    List (String × String) :=
  if contributes row then
    dinsert info (pyGetD row "field" "") (pyGetD row "value" "")
  else info

/-- One stat record of the about section. -/
structure Stat where
  key : String
  number : String
  label : String
deriving DecidableEq

/-- The about-section record. -/
structure About where
  title : String
  paragraphs : List String
  stats : List Stat
deriving DecidableEq

/-- The `_number` branch of `parse_about` (lines 146-153): find the first
stat with this key and overwrite its number, else append a new stat with an
empty label. -/
def updStatNumber (k v : String) : List Stat → List Stat
  | [] => [⟨k, v, ""⟩]
  | s :: rest => if s.key = k then ⟨s.key, v, s.label⟩ :: rest
                 else s :: updStatNumber k v rest

/-- The `_label` branch of `parse_about` (lines 154-161). -/
def updStatLabel (k v : String) : List Stat → List Stat
  | [] => [⟨k, "", v⟩]
  | s :: rest => if s.key = k then ⟨s.key, s.number, v⟩ :: rest
                 else s :: updStatLabel k v rest

/-- Loop body of `parse_about` (lines 139-161). `stat_key` is computed with
Python `str.replace`, which removes every occurrence of the suffix, not just
the final one. -/
def aboutStep (about : About) (row : Row) : About :=
  let field := pyGetD row "field" ""
  let value := pyGetD row "value" ""
  if field = "title" then { about with title := value }
  else if pyStartsWith field "paragraph" then
    { about with paragraphs := about.paragraphs ++ [value] }
  else if pyEndsWith field "_number" then
    { about with stats := updStatNumber (pyReplace field "_number" "") value about.stats }
  else if pyEndsWith field "_label" then
    { about with stats := updStatLabel (pyReplace field "_label" "") value about.stats }
  else about

/-- `parse_about` (lines 132-162). -/
def parse_about (data : List Row) : About :=
  List.foldl aboutStep ⟨"", [], []⟩ data

/-- One core-value record. -/
structure CoreValue where
  icon : String
  title : String
  description : String
  gradient : String
deriving DecidableEq

/-- `parse_core_values` (lines 164-175): one record per row having both a
truthy icon and a truthy title. -/
def parse_core_values (data : List Row) : List CoreValue :=
  List.foldl
    (fun values row =>
      if truthy (pyGet row "icon") && truthy (pyGet row "title") then
        values ++ [⟨pyGetD row "icon" "🎯", pyGetD row "title" "",
                    pyGetD row "description" "",
                    pyGetD row "gradient" "from-blue-500 to-cyan-500"⟩]
      else values)
    [] data

/-- One services-overview record. -/
structure ServiceSummary where
  name : String
  link_id : String
  gradient : String
deriving DecidableEq

/-- `parse_services` (lines 177-187): one record per row with a truthy name. -/
def parse_services (data : List Row) : List ServiceSummary :=
  List.foldl
    (fun services row =>
      if truthy (pyGet row "name") then
        services ++ [⟨pyGetD row "name" "", pyGetD row "link_id" "",
                      pyGetD row "gradient" "from-blue-500 to-cyan-500"⟩]
      else services)
    [] data

/-- One service-detail record. -/
structure ServiceDetail where
  service_id : String
  title : String
  intro : String
  bullets_title : String
  bullets : List String
  closing : String
  bg_image : String
  image_position : String
deriving DecidableEq

/-- Record built from one row of `parse_service_details` (lines 195-207).
`bullets` is `row.get('key_services','').split('|') if row.get('key_services')
else []`, then each segment stripped and falsy segments dropped. -/
def rowToDetail (row : Row) : ServiceDetail where
  service_id := pyGetD row "service_id" ""
  title := pyGetD row "title" ""
  intro := pyGetD row "intro" ""
  bullets_title := pyGetD row "bullets_title" "Key Services Include:"
  bullets :=
    ((if truthy (pyGet row "key_services") then
        pySplit (pyGetD row "key_services" "") "|"
      else []).map pyStrip).filter (fun b => b ≠ "")
  closing := pyGetD row "closing" ""
  bg_image := pyGetD row "bg_image" ""
  image_position := pyGetD row "image_position" "right"

/-- `parse_service_details` (lines 189-208): rows without a truthy
`service_id` are skipped. -/
def parse_service_details (data : List Row) : List ServiceDetail :=
  List.foldl
    (fun details row =>
      if truthy (pyGet row "service_id") then details ++ [rowToDetail row]
      else details)
    [] data

/-! ## The image mirror (lines 36-114) -/

/-- `extract_gdrive_file_id` (lines 36-53): the three `re.search` patterns
`/d/(id)`, `id=(id)`, `/file/d/(id)` tried in order. -/
def extract_gdrive_file_id (url : String) : Option String :=
  if url = "" then none
  else
    match findMatch "/d/".data url.data with
    | some run => some ⟨run⟩
    | none =>
      match findMatch "id=".data url.data with
      | some run => some ⟨run⟩
      | none => (findMatch "/file/d/".data url.data).map (fun run => ⟨run⟩)

/-- `is_gdrive_url` (lines 81-85): a substring check, not a host check. -/
def is_gdrive_url (url : String) : Bool :=
  if url = "" then false
  else pyIn "drive.google.com" url || pyIn "googleusercontent.com" url

/-- `download_image_from_gdrive` (lines 55-79). The network and the
filesystem are abstracted by the oracle `net`: `net fid` is the success of
`urlretrieve` on the download URL built from `fid` (an exception is a
`false`). -/
def download_image_from_gdrive (net : String → Bool) (gdrive_url : String)
    (_local_filename : String) : Bool :=
  match extract_gdrive_file_id gdrive_url with
  | none => false
  | some fid => net fid

/-- `process_image_url` (lines 87-114). -/
def process_image_url (net : String → Bool) (url default_filename : String) :
    String :=
  if url = "" then ""
  else if pyStartsWith url "images/" then url
  else if is_gdrive_url url then
    if download_image_from_gdrive net url default_filename then
      "images/" ++ default_filename
    else ""
  else url

/-! ## `text_to_paragraphs` (lines 509-541) -/

/-- Split on `sep`, strip each segment, drop falsy segments:
`[p.strip() for p in text.split(sep) if p.strip()]`. -/
def pySSF (sep text : String) : List String :=
  ((pySplit text sep).map pyStrip).filter (fun p => p ≠ "")

/-- The `paragraphs` local of `text_to_paragraphs` (lines 523-533): the
double-pipe / blank-line / single-newline / whole-text fallback chain. -/
def paragraphsChain (text : String) : List String :=
  if pyIn "||" text then pySSF "||" text
  else
    let p2 := pySSF "\n\n" text
    if p2.length ≤ 1 then
      let p1 := pySSF "\n" text
      if p1.length ≤ 1 then [pyStrip text] else p1
    else p2

/-- The paragraph blocks rendered by `text_to_paragraphs`: none for falsy
input (line 518), and the comprehension on line 538 drops falsy paragraphs. -/
def paragraphBlocks (text : String) : List String :=
  if text = "" then [] else (paragraphsChain text).filter (fun p => p ≠ "")

/-- `text_to_paragraphs` (lines 509-541): one `<p>` element per block; the
Python default for `css_class` is `"text-lg text-gray-200 mb-6"`. -/
def text_to_paragraphs (text : String) (css_class : String) : String :=
  if text = "" then ""
  else
    String.intercalate "\n"
      ((paragraphBlocks text).map (fun para =>
        "                    <p class=\"" ++ css_class ++ "\">\n                        "
          ++ para ++ "\n                    </p>"))

/-! ## Spec-side definitions, written from the specification text -/

/-- One step of `lastWrite`: a contributing row with field `k` replaces the
accumulated value. -/
def lwStep (k : String) (acc : Option String) (row : Row) : Option String :=
  if contributes row = true ∧ pyGet row "field" = some k then pyGet row "value"
  else acc

/-- Written from the spec: the value contributed for key `k` by the last
row whose `field` is `k` and whose `field` and `value` are both non-empty,
`none` when no such row exists. -/
def lastWrite (data : List Row) (k : String) : Option String :=
  List.foldl (lwStep k) none data

/-- Written from the (amended) spec: merge a `number` or `label`
contribution for stat key `k` into the stat list, updating the first record
with that key in place and otherwise appending a new, half-populated record;
first-seen order is preserved. -/
def mergeStat (stats : List Stat) (k v : String) (isNumber : Bool) : List Stat :=
  match stats with
  | [] => [if isNumber then ⟨k, v, ""⟩ else ⟨k, "", v⟩]
  | s :: rest =>
    if s.key = k then
      (if isNumber then ⟨s.key, v, s.label⟩ else ⟨s.key, s.number, v⟩) :: rest
    else s :: mergeStat rest k v isNumber

/-- Written from the (amended) spec: the stat key and kind a field routes
to, `_number` tested before `_label`, the key being the field name with
every occurrence of the suffix removed. -/
def statRoute (field : String) : Option (String × Bool) :=
  if pyEndsWith field "_number" then some (pyReplace field "_number" "", true)
  else if pyEndsWith field "_label" then some (pyReplace field "_label" "", false)
  else none

/-- One step of `aboutStatsSpec`: rows captured by the `title` /
`paragraph*` dispatch are skipped, the rest go through `statRoute`. -/
def aboutStatsStep (stats : List Stat) (row : Row) : List Stat :=
  let field := pyGetD row "field" ""
  if field = "title" ∨ pyStartsWith field "paragraph" = true then stats
  else
    match statRoute field with
    | none => stats
    | some (k, isNumber) => mergeStat stats k (pyGetD row "value" "") isNumber

/-- Written from the (amended) spec: the stats assembled from the rows, in
first-seen order. -/
def aboutStatsSpec (data : List Row) : List Stat :=
  List.foldl aboutStatsStep [] data

/-- Modelled from the claim wording of C5: the authority (host) component
of a URL — the text after `://` up to the first `/`, with any query part
dropped. -/
def urlHost (url : String) : String :=
  (pySplit ((pySplit ((pySplit url "://").getD 1 "") "/").getD 0 "") "?").getD 0 ""

/-! ## Helper lemmas -/

theorem truthy_eq_true {o : Option String} (h : truthy o = true) :
    ∃ s, o = some s ∧ s ≠ "" := by
  cases o with
  | none => simp [truthy] at h
  | some s =>
    refine ⟨s, rfl, ?_⟩
    simpa [truthy] using h

theorem truthy_eq_false {o : Option String} (h : truthy o = false) :
    o.getD "" = "" := by
  cases o with
  | none => rfl
  | some s => simpa [truthy] using h

theorem dlookup_dinsert (m : List (String × String)) (k v k' : String) :
    dlookup (dinsert m k v) k' = if k' = k then some v else dlookup m k' := by
  induction m with
  | nil =>
    by_cases h : k' = k
    · have hb : (k == k') = true := beq_iff_eq.mpr h.symm
      simp [dlookup, dinsert, List.find?, hb, h]
    · have hb : (k == k') = false := beq_eq_false_iff_ne.mpr (fun e => h e.symm)
      simp [dlookup, dinsert, List.find?, hb, h]
  | cons p rest ih =>
    by_cases hp : p.1 = k
    · by_cases h : k' = k
      · have hb : (k == k') = true := beq_iff_eq.mpr h.symm
        simp [dlookup, dinsert, List.find?, hp, hb, h]
      · have hb : (k == k') = false := beq_eq_false_iff_ne.mpr (fun e => h e.symm)
        have hpb : (p.1 == k') = false :=
          beq_eq_false_iff_ne.mpr (fun e => h (e.symm.trans hp))
        simp [dlookup, dinsert, List.find?, hp, hb, hpb, h]
    · by_cases hk : p.1 = k'
      · have h : ¬ k' = k := fun e => hp (e ▸ hk)
        have hpb : (p.1 == k') = true := beq_iff_eq.mpr hk
        simp [dlookup, dinsert, List.find?, hp, hpb, h]
      · have hpb : (p.1 == k') = false := beq_eq_false_iff_ne.mpr hk
        simp only [dlookup, dinsert, if_neg hp, List.find?, hpb]
        simpa [dlookup] using ih

/-- The effect of one `fvStep` when the guard holds: the guard guarantees
both subscripts succeed. -/
theorem fvStep_of_contributes {row : Row} (h : contributes row = true) :
    ∃ f v, pyGet row "field" = some f ∧ pyGet row "value" = some v ∧
      f ≠ "" ∧ v ≠ "" ∧ ∀ info, fvStep info row = some (dinsert info f v) := by
  have hf := truthy_eq_true (o := pyGet row "field") (by
    have := congrArg (fun b => b) h
    simp [contributes, Bool.and_eq_true] at h
    exact h.1)
  have hv := truthy_eq_true (o := pyGet row "value") (by
    simp [contributes, Bool.and_eq_true] at h
    exact h.2)
  obtain ⟨f, hf1, hf2⟩ := hf
  obtain ⟨v, hv1, hv2⟩ := hv
  exact ⟨f, v, hf1, hv1, hf2, hv2, fun info => by simp [fvStep, h, hf1, hv1]⟩

/-- The monadic fold of the `field`/`value` parsers never fails and agrees
with the total fold. -/
theorem fv_foldlM_eq (data : List Row) :
    ∀ init, List.foldlM fvStep init data = some (List.foldl fvPlainStep init data) := by
  induction data with
  | nil => intro init; rfl
  | cons row rest ih =>
    intro init
    by_cases h : contributes row = true
    · obtain ⟨f, v, hf, hv, -, -, hstep⟩ := fvStep_of_contributes h
      have hplain : fvPlainStep init row = dinsert init f v := by
        simp [fvPlainStep, h, pyGetD, hf, hv]
      simp only [List.foldlM_cons, hstep init, Option.bind_eq_bind, Option.some_bind,
        List.foldl_cons, hplain]
      exact ih (dinsert init f v)
    · have hb : contributes row = false := by simpa using h
      have hstep : fvStep init row = some init := by simp [fvStep, hb]
      have hplain : fvPlainStep init row = init := by simp [fvPlainStep, hb]
      simp only [List.foldlM_cons, hstep, Option.bind_eq_bind, Option.some_bind,
        List.foldl_cons, hplain]
      exact ih init

/-- Looking up `k` after the total fold recovers the last contributing
write for `k`. -/
theorem dlookup_foldl_fvPlain (data : List Row) :
    ∀ (init : List (String × String)) (k : String),
      dlookup (List.foldl fvPlainStep init data) k
        = List.foldl (lwStep k) (dlookup init k) data := by
  induction data with
  | nil => intro init k; rfl
  | cons row rest ih =>
    intro init k
    simp only [List.foldl_cons]
    rw [ih]
    congr 1
    by_cases h : contributes row = true
    · obtain ⟨f, v, hf, hv, -, -, -⟩ := fvStep_of_contributes h
      have hplain : fvPlainStep init row = dinsert init f v := by
        simp [fvPlainStep, h, pyGetD, hf, hv]
      rw [hplain, dlookup_dinsert]
      by_cases hkf : k = f
      · simp [lwStep, h, hf, hv, hkf]
      · have hcond : ¬ (contributes row = true ∧ pyGet row "field" = some k) := by
          rintro ⟨-, hc⟩
          rw [hf] at hc
          exact hkf (Option.some.inj hc).symm
        rw [if_neg hkf]
        simp [lwStep, hcond]
    · have hb : contributes row = false := by simpa using h
      simp [fvPlainStep, lwStep, hb]

/-- The `field`/`value` fold, packaged: the parser succeeds and every
lookup in its result is the last contributing write. -/
theorem fv_parser_spec (data : List Row) :
    ∃ m, List.foldlM fvStep [] data = some m ∧
      ∀ k, dlookup m k = lastWrite data k := by
  refine ⟨List.foldl fvPlainStep [] data, fv_foldlM_eq data [], fun k => ?_⟩
  have h := dlookup_foldl_fvPlain data [] k
  simpa [dlookup, lastWrite] using h

theorem updStatNumber_eq_mergeStat (k v : String) (stats : List Stat) :
    updStatNumber k v stats = mergeStat stats k v true := by
  induction stats with
  | nil => rfl
  | cons s rest ih =>
    by_cases h : s.key = k <;> simp [updStatNumber, mergeStat, h, ih]

theorem updStatLabel_eq_mergeStat (k v : String) (stats : List Stat) :
    updStatLabel k v stats = mergeStat stats k v false := by
  induction stats with
  | nil => rfl
  | cons s rest ih =>
    by_cases h : s.key = k <;> simp [updStatLabel, mergeStat, h, ih]

/-- The stats component of one `parse_about` step agrees with the spec-side
routing step. -/
theorem aboutStep_stats (about : About) (row : Row) :
    (aboutStep about row).stats = aboutStatsStep about.stats row := by
  by_cases h1 : pyGetD row "field" "" = "title"
  · simp [aboutStep, aboutStatsStep, h1]
  · by_cases h2 : pyStartsWith (pyGetD row "field" "") "paragraph" = true
    · simp [aboutStep, aboutStatsStep, h1, h2]
    · by_cases h3 : pyEndsWith (pyGetD row "field" "") "_number" = true
      · simp [aboutStep, aboutStatsStep, statRoute, h1, h2, h3,
          updStatNumber_eq_mergeStat]
      · by_cases h4 : pyEndsWith (pyGetD row "field" "") "_label" = true
        · simp [aboutStep, aboutStatsStep, statRoute, h1, h2, h3, h4,
            updStatLabel_eq_mergeStat]
        · simp [aboutStep, aboutStatsStep, statRoute, h1, h2, h3, h4]

/-- The stats component of the `parse_about` fold is the spec-side fold. -/
theorem foldl_aboutStep_stats (data : List Row) :
    ∀ about : About,
      (List.foldl aboutStep about data).stats
        = List.foldl aboutStatsStep about.stats data := by
  induction data with
  | nil => intro about; rfl
  | cons row rest ih =>
    intro about
    simp only [List.foldl_cons]
    rw [ih, aboutStep_stats]

/-- `parse_service_details` as filter-then-map. -/
theorem parse_service_details_filter_map (data : List Row) :
    parse_service_details data
      = (data.filter (fun r => truthy (pyGet r "service_id"))).map rowToDetail := by
  suffices h : ∀ acc : List ServiceDetail,
      List.foldl
        (fun details row =>
          if truthy (pyGet row "service_id") then details ++ [rowToDetail row]
          else details)
        acc data
        = acc ++ (data.filter (fun r => truthy (pyGet r "service_id"))).map rowToDetail by
    simpa [parse_service_details] using h []
  induction data with
  | nil => intro acc; simp
  | cons row rest ih =>
    intro acc
    by_cases h : truthy (pyGet row "service_id") = true
    · simp [List.foldl_cons, List.filter_cons, h, ih]
    · have hb : truthy (pyGet row "service_id") = false := by simpa using h
      simp [List.foldl_cons, List.filter_cons, hb, ih]

/-- The bullets of a service-detail record are exactly the split-strip-drop
of its `key_services` value (the empty-or-absent case gives no bullets). -/
theorem rowToDetail_bullets (row : Row) :
    (rowToDetail row).bullets = pySSF "|" (pyGetD row "key_services" "") := by
  by_cases h : truthy (pyGet row "key_services") = true
  · obtain ⟨s, hs, -⟩ := truthy_eq_true h
    rw [hs] at h
    simp [rowToDetail, pySSF, pyGetD, h, hs]
  · have hb : truthy (pyGet row "key_services") = false := by simpa using h
    have hd : pyGetD row "key_services" "" = "" := by
      simpa [pyGetD] using truthy_eq_false hb
    have : pySSF "|" "" = [] := by decide
    simp [rowToDetail, hb, hd, this]

theorem filter_ne_empty_idem (l : List String) :
    (l.filter (fun p => p ≠ "")).filter (fun p => p ≠ "") = l.filter (fun p => p ≠ "") := by
  induction l with
  | nil => rfl
  | cons a l ih => by_cases h : a = "" <;> simp [List.filter_cons, h, ih]

theorem filter_pySSF (sep text : String) :
    (pySSF sep text).filter (fun p => p ≠ "") = pySSF sep text := by
  simp only [pySSF]
  exact filter_ne_empty_idem _

/-! ## Claims -/

/-- C1, counterexample: the stat key is computed with Python `str.replace`,
which removes every occurrence of `_number`, not only the trailing suffix;
and a field that starts with `paragraph` routes to the paragraphs list even
when it ends in `_number`, never reaching the stats.  (The inequalities are
stated as `decide (...) = false` to keep the statement binder-free.) -/
theorem c1_counterexample :
    (parse_about [[("field", "a_number_number"), ("value", "5")]]).stats
      = [⟨"a", "5", ""⟩] ∧
    decide ((parse_about [[("field", "a_number_number"), ("value", "5")]]).stats
      = [⟨"a_number", "5", ""⟩]) = false ∧
    (parse_about [[("field", "paragraph_count_number"), ("value", "7")]]).stats = [] ∧
    (parse_about [[("field", "paragraph_count_number"), ("value", "7")]]).paragraphs
      = ["7"] := by
  decide

/-- C1 (amended): for fields not captured by the `title` / `paragraph*`
dispatch, `_number` / `_label` suffixed fields route into the stats list
with key the field name with every occurrence of the suffix removed; rows
sharing a key merge into one record, first-seen order is preserved, and a
stat may be half-populated.  `aboutStatsSpec` is the routing written from
those words; the concrete cases are the spec examples. -/
theorem c1_parse_about_stats :
    (∀ data : List Row, (parse_about data).stats = aboutStatsSpec data) ∧
    parse_about
      [[("field", "title"), ("value", "X")],
       [("field", "paragraph1"), ("value", "A")],
       [("field", "revenue_number"), ("value", "5")],
       [("field", "revenue_label"), ("value", "Clients")]]
      = ⟨"X", ["A"], [⟨"revenue", "5", "Clients"⟩]⟩ ∧
    (parse_about [[("field", "team_number"), ("value", "12")]]).stats
      = [⟨"team", "12", ""⟩] ∧
    (parse_about [[("field", "team_label"), ("value", "Members")]]).stats
      = [⟨"team", "", "Members"⟩] := by
  refine ⟨fun data => ?_, by decide, by decide, by decide⟩
  simpa [parse_about, aboutStatsSpec] using foldl_aboutStep_stats data ⟨"", [], []⟩

/-- C2: every section parser is total.  The three `field`/`value` parsers
contain the only fallible operation (a dict subscript, modelled in
`Option`) and always return a result; the remaining four parsers are built
from total operations only, and the closed conjuncts evaluate them on rows
with missing fields, exhibiting the documented defaults. -/
theorem c2_parsers_total :
    (∀ data : List Row, (parse_general_info data).isSome = true) ∧
    (∀ data : List Row, (parse_hero data).isSome = true) ∧
    (∀ data : List Row, (parse_contact data).isSome = true) ∧
    parse_about [([] : Row), [("x", "y")]] = ⟨"", [], []⟩ ∧
    parse_core_values [([] : Row)] = [] ∧
    parse_services [([] : Row)] = [] ∧
    parse_service_details [([] : Row)] = [] ∧
    rowToDetail [("service_id", "s")]
      = ⟨"s", "", "", "Key Services Include:", [], "", "", "right"⟩ := by
  refine ⟨fun d => ?_, fun d => ?_, fun d => ?_,
    by decide, by decide, by decide, by decide, by decide⟩ <;>
  simp [parse_general_info, parse_hero, parse_contact, fv_foldlM_eq d []]

/-- C3, counterexample: on the empty string the claimed final fallback
("the whole field is one paragraph block") fails — the code emits no
paragraph block at all. -/
theorem c3_counterexample :
    paragraphBlocks "" = [] ∧ decide ((paragraphBlocks "").length = 1) = false := by
  decide

/-- C3 (amended): the fallback chain of `text_to_paragraphs`, with segments
trimmed and empty segments dropped at every stage; in the final fallback the
single block is the trimmed whole field, and an empty or whitespace-only
input yields no block.  The concrete cases are the spec examples. -/
theorem c3_paragraph_fallback_chain :
    ∀ text : String,
      (pyIn "||" text = true → paragraphBlocks text = pySSF "||" text) ∧
      (pyIn "||" text = false → 1 < (pySSF "\n\n" text).length →
        paragraphBlocks text = pySSF "\n\n" text) ∧
      (pyIn "||" text = false → (pySSF "\n\n" text).length ≤ 1 →
        1 < (pySSF "\n" text).length → paragraphBlocks text = pySSF "\n" text) ∧
      (pyIn "||" text = false → (pySSF "\n\n" text).length ≤ 1 →
        (pySSF "\n" text).length ≤ 1 →
        paragraphBlocks text = if pyStrip text = "" then [] else [pyStrip text]) ∧
      paragraphBlocks "A||B||C" = ["A", "B", "C"] ∧
      paragraphBlocks "single line" = ["single line"] := by
  intro text
  refine ⟨?_, ?_, ?_, ?_, by decide, by decide⟩
  · intro h1
    have htext : text ≠ "" := by
      intro e; rw [e] at h1; exact absurd h1 (by decide)
    simp only [paragraphBlocks, if_neg htext, paragraphsChain, h1, if_true]
    exact filter_pySSF "||" text
  · intro h1 h2
    have htext : text ≠ "" := by
      intro e; rw [e] at h2; exact absurd h2 (by decide)
    simp only [paragraphBlocks, if_neg htext, paragraphsChain, h1, Bool.false_eq_true,
      if_false, if_neg (Nat.not_le.mpr h2)]
    exact filter_pySSF "\n\n" text
  · intro h1 h2 h3
    have htext : text ≠ "" := by
      intro e; rw [e] at h3; exact absurd h3 (by decide)
    simp only [paragraphBlocks, if_neg htext, paragraphsChain, h1, Bool.false_eq_true,
      if_false, if_pos h2, if_neg (Nat.not_le.mpr h3)]
    exact filter_pySSF "\n" text
  · intro h1 h2 h3
    by_cases htext : text = ""
    · rw [htext]; decide
    · simp only [paragraphBlocks, if_neg htext, paragraphsChain, h1, Bool.false_eq_true,
        if_false, if_pos h2, if_pos h3]
      by_cases hs : pyStrip text = "" <;> simp [List.filter_cons, hs]

/-- C3 witness: the chain theorem applied on one concrete input per branch. -/
theorem c3_witness :
    paragraphBlocks "A||B" = ["A", "B"] ∧
    paragraphBlocks "a\n\nb" = ["a", "b"] ∧
    paragraphBlocks "a\nb" = ["a", "b"] ∧
    paragraphBlocks " padded " = ["padded"] :=
  ⟨((c3_paragraph_fallback_chain "A||B").1 (by decide)).trans (by decide),
   ((c3_paragraph_fallback_chain "a\n\nb").2.1 (by decide) (by decide)).trans (by decide),
   ((c3_paragraph_fallback_chain "a\nb").2.2.1 (by decide) (by decide) (by decide)).trans
     (by decide),
   ((c3_paragraph_fallback_chain " padded ").2.2.2.1 (by decide) (by decide)
     (by decide)).trans (by decide)⟩

/-- C4: `process_image_url` returns the empty string on empty input; passes
`images/`-prefixed inputs through unchanged, independently of the network
oracle; on a drive URL returns `images/<default_filename>` exactly when an
id is extracted and its download succeeds, and the empty string on either
failure; and passes any other URL through unchanged. -/
theorem c4_process_image_url :
    ∀ (net : String → Bool) (url fn : String),
      (url = "" → process_image_url net url fn = "") ∧
      (pyStartsWith url "images/" = true →
        process_image_url net url fn = url ∧
        ∀ net2 : String → Bool, process_image_url net2 url fn = process_image_url net url fn) ∧
      (url ≠ "" → pyStartsWith url "images/" = false → is_gdrive_url url = true →
        (∀ fid, extract_gdrive_file_id url = some fid →
          (net fid = true → process_image_url net url fn = "images/" ++ fn) ∧
          (net fid = false → process_image_url net url fn = "")) ∧
        (extract_gdrive_file_id url = none → process_image_url net url fn = "")) ∧
      (url ≠ "" → pyStartsWith url "images/" = false → is_gdrive_url url = false →
        process_image_url net url fn = url) := by
  intro net url fn
  refine ⟨?_, ?_, ?_, ?_⟩
  · intro h; simp [process_image_url, h]
  · intro h
    have hne : url ≠ "" := by
      intro e; rw [e] at h; exact absurd h (by decide)
    exact ⟨by simp [process_image_url, hne, h],
      fun net2 => by simp [process_image_url, hne, h]⟩
  · intro hne hsw hg
    constructor
    · intro fid hfid
      constructor
      · intro hnet
        simp [process_image_url, hne, hsw, hg, download_image_from_gdrive, hfid, hnet]
      · intro hnet
        simp [process_image_url, hne, hsw, hg, download_image_from_gdrive, hfid, hnet]
    · intro hnone
      simp [process_image_url, hne, hsw, hg, download_image_from_gdrive, hnone]
  · intro hne hsw hg
    simp [process_image_url, hne, hsw, hg]

/-- C4 witness: the resolver applied to one concrete input per case. -/
theorem c4_witness :
    process_image_url (fun _ => true) "images/logo.png" "logo.png" = "images/logo.png" ∧
    process_image_url (fun _ => true) "https://drive.google.com/file/d/AB12/view" "logo.png"
      = "images/logo.png" ∧
    process_image_url (fun _ => false) "https://drive.google.com/file/d/AB12/view" "logo.png"
      = "" ∧
    process_image_url (fun _ => true) "https://drive.google.com/drive/folders" "x.png" = "" ∧
    process_image_url (fun _ => true) "https://example.com/logo.png" "logo.png"
      = "https://example.com/logo.png" :=
  ⟨((c4_process_image_url (fun _ => true) "images/logo.png" "logo.png").2.1 (by decide)).1,
   (((c4_process_image_url (fun _ => true) "https://drive.google.com/file/d/AB12/view"
      "logo.png").2.2.1 (by decide) (by decide) (by decide)).1 "AB12" (by decide)).1 rfl,
   (((c4_process_image_url (fun _ => false) "https://drive.google.com/file/d/AB12/view"
      "logo.png").2.2.1 (by decide) (by decide) (by decide)).1 "AB12" (by decide)).2 rfl,
   ((c4_process_image_url (fun _ => true) "https://drive.google.com/drive/folders"
      "x.png").2.2.1 (by decide) (by decide) (by decide)).2 (by decide),
   (c4_process_image_url (fun _ => true) "https://example.com/logo.png" "logo.png").2.2.2
     (by decide) (by decide) (by decide)⟩

/-- C5, counterexample: `is_gdrive_url` is a substring test, not a host
test — a URL whose host is `example.com` is classified as a drive URL
because the domain appears in its query string. -/
theorem c5_counterexample :
    is_gdrive_url "https://example.com/page?ref=drive.google.com" = true ∧
    urlHost "https://example.com/page?ref=drive.google.com" = "example.com" ∧
    decide (("example.com" : String) = "drive.google.com") = false ∧
    decide (("example.com" : String) = "googleusercontent.com") = false := by
  decide

/-- C5 (amended): `is_gdrive_url url` is true exactly when one of the two
domain names occurs as a substring anywhere in `url`. -/
theorem c5_is_gdrive_url_substring :
    ∀ url : String,
      is_gdrive_url url = true ↔
        (pyIn "drive.google.com" url = true ∨ pyIn "googleusercontent.com" url = true) := by
  intro url
  by_cases h : url = ""
  · rw [h]; decide
  · simp [is_gdrive_url, h, Bool.or_eq_true]

/-- C5 witness: the substring characterisation applied on a concrete URL. -/
theorem c5_witness :
    is_gdrive_url "https://drive.google.com/file/d/A/view" = true :=
  (c5_is_gdrive_url_substring "https://drive.google.com/file/d/A/view").mpr
    (Or.inl (by decide))

/-- C7: `extract_gdrive_file_id` tries the three patterns in order and
returns the first match, `none` when no pattern matches or the URL is
falsy; the concrete cases are the spec examples. -/
theorem c7_extract_gdrive_file_id :
    ∀ url : String,
      (url ≠ "" →
        (∀ r, findMatch "/d/".data url.data = some r →
          extract_gdrive_file_id url = some (String.mk r)) ∧
        (findMatch "/d/".data url.data = none →
          ∀ r, findMatch "id=".data url.data = some r →
            extract_gdrive_file_id url = some (String.mk r)) ∧
        (findMatch "/d/".data url.data = none → findMatch "id=".data url.data = none →
          extract_gdrive_file_id url
            = (findMatch "/file/d/".data url.data).map (fun r => String.mk r))) ∧
      extract_gdrive_file_id "" = none ∧
      extract_gdrive_file_id "https://drive.google.com/file/d/ABC123/view"
        = some "ABC123" ∧
      extract_gdrive_file_id "https://example.com/logo.png" = none := by
  intro url
  refine ⟨fun hne => ⟨?_, ?_, ?_⟩, by decide, by decide, by decide⟩
  · intro r h1
    simp [extract_gdrive_file_id, hne, h1]
  · intro h1 r h2
    simp [extract_gdrive_file_id, hne, h1, h2]
  · intro h1 h2
    simp [extract_gdrive_file_id, hne, h1, h2]

/-- C7 witness: the pattern-order theorem applied on concrete URLs hitting
the first and the second pattern. -/
theorem c7_witness :
    extract_gdrive_file_id "x/d/abc" = some (String.mk "abc".data) ∧
    extract_gdrive_file_id "open?id=zz9" = some (String.mk "zz9".data) :=
  ⟨((c7_extract_gdrive_file_id "x/d/abc").1 (by decide)).1 "abc".data (by decide),
   ((c7_extract_gdrive_file_id "open?id=zz9").1 (by decide)).2.1 (by decide)
     "zz9".data (by decide)⟩

/-- C6, counterexample: the record's `image_position` is not confined to
`left` / `right` — a row carrying `center` is stored verbatim, because the
`.get` default applies only when the field is absent. -/
theorem c6_counterexample :
    (parse_service_details [[("service_id", "s1"), ("image_position", "center")]]).map
      (fun d => d.image_position) = ["center"] ∧
    decide (("center" : String) = "left") = false ∧
    decide (("center" : String) = "right") = false := by
  decide

/-- C6 (amended): the record's `image_position` is the row's value verbatim
whenever the field is present (any string, including blank or differently
cased ones), and `"right"` exactly when the field is absent. -/
theorem c6_image_position_verbatim :
    ∀ row : Row,
      (pyGet row "image_position" = none → (rowToDetail row).image_position = "right") ∧
      (∀ v, pyGet row "image_position" = some v → (rowToDetail row).image_position = v) := by
  intro row
  constructor
  · intro h; simp [rowToDetail, pyGetD, h]
  · intro v h; simp [rowToDetail, pyGetD, h]

/-- C6 witness: the default on an absent field, and a verbatim non-standard
value on a present one. -/
theorem c6_witness :
    (rowToDetail [("service_id", "s")]).image_position = "right" ∧
    (rowToDetail [("service_id", "s"), ("image_position", "center")]).image_position
      = "center" :=
  ⟨(c6_image_position_verbatim [("service_id", "s")]).1 (by decide),
   (c6_image_position_verbatim [("service_id", "s"), ("image_position", "center")]).2
     "center" (by decide)⟩

/-- C8: `parse_service_details` emits one record per row with a truthy
`service_id`, in row order, skipping the rest; bullets are the
`|`-separated, trimmed, non-empty segments of `key_services`; the concrete
cases are the spec examples. -/
theorem c8_parse_service_details :
    (∀ data : List Row,
      parse_service_details data
        = (data.filter (fun r => truthy (pyGet r "service_id"))).map rowToDetail) ∧
    (∀ row : Row, (rowToDetail row).bullets = pySSF "|" (pyGetD row "key_services" "")) ∧
    (rowToDetail [("service_id", "s"), ("key_services", "One | Two | Three")]).bullets
      = ["One", "Two", "Three"] ∧
    (rowToDetail [("service_id", "s"), ("key_services", "")]).bullets = [] ∧
    (rowToDetail [("service_id", "s")]).bullets = [] ∧
    parse_service_details [[("title", "no id")]] = [] :=
  ⟨parse_service_details_filter_map, rowToDetail_bullets,
   by decide, by decide, by decide, by decide⟩

/-- C9: the three `field`/`value` parsers are deterministic folds: each
succeeds on every input, and looking up any key in the result yields the
value of the last contributing row (non-empty `field` and `value`) with
that field — last-write-wins; keys never written by a contributing row are
absent. -/
theorem c9_field_value_parsers :
    ∀ data : List Row,
      (∃ m, parse_general_info data = some m ∧ ∀ k, dlookup m k = lastWrite data k) ∧
      (∃ m, parse_hero data = some m ∧ ∀ k, dlookup m k = lastWrite data k) ∧
      (∃ m, parse_contact data = some m ∧ ∀ k, dlookup m k = lastWrite data k) :=
  fun data => ⟨fv_parser_spec data, fv_parser_spec data, fv_parser_spec data⟩

/-- C10: dispatch precedence inside `parse_about`: an exact `title` match
wins, any other field starting with `paragraph` is appended to the
paragraphs — so a field such as `paragraph_count_number` never contributes
to the stats, its `_number` suffix notwithstanding. -/
theorem c10_paragraph_precedence :
    ∀ (about : About) (row : Row),
      (pyGetD row "field" "" = "title" →
        aboutStep about row = { about with title := pyGetD row "value" "" }) ∧
      (pyStartsWith (pyGetD row "field" "") "paragraph" = true →
        aboutStep about row
          = { about with paragraphs := about.paragraphs ++ [pyGetD row "value" ""] } ∧
        (aboutStep about row).stats = about.stats) := by
  intro about row
  constructor
  · intro h; simp [aboutStep, h]
  · intro h
    have h1 : pyGetD row "field" "" ≠ "title" := by
      intro e; rw [e] at h; exact absurd h (by decide)
    exact ⟨by simp [aboutStep, h1, h], by simp [aboutStep, h1, h]⟩

/-- C10 witness: a `paragraph`-prefixed, `_number`-suffixed field goes to
the paragraphs and leaves the stats untouched; `title` wins over both. -/
theorem c10_witness :
    aboutStep ⟨"T", ["p0"], [⟨"k", "1", "2"⟩]⟩
        [("field", "paragraph_count_number"), ("value", "9")]
      = ⟨"T", ["p0", "9"], [⟨"k", "1", "2"⟩]⟩ ∧
    aboutStep ⟨"", [], []⟩ [("field", "title"), ("value", "X")] = ⟨"X", [], []⟩ :=
  ⟨(((c10_paragraph_precedence ⟨"T", ["p0"], [⟨"k", "1", "2"⟩]⟩
      [("field", "paragraph_count_number"), ("value", "9")]).2 (by decide)).1).trans
      (by decide),
   ((c10_paragraph_precedence ⟨"", [], []⟩ [("field", "title"), ("value", "X")]).1
      (by decide)).trans (by decide)⟩
